import Mathlib

/-!
Verification of the heuristic scoring core of the URL & Email Suspicious
Checker (src/url_redirect_visualizer_full.py).

The program's logical core consists of:
  * check_url   (lines 17-58)  : URL heuristic scorer
  * check_email (lines 60-81)  : email heuristic scorer
  * the score -> status classifier inside SuspiciousChecker.analyze_input
    (lines 346-354)
  * the per-line dispatch on the presence of an at-sign (lines 340-344)
  * the CSV history append logic (lines 374-382)

Strings are modelled as Lean String / List Char.  The Python regexes used by
the scorers are fixed literal patterns; each is embedded as a Bool-valued
function on List Char that implements exactly the language of that pattern
(with a word character modelled as ASCII [A-Za-z0-9_], adequate for the
ASCII rule alphabets used here, and case folding modelled as ASCII
lowercasing).  Python ints are modelled as Nat: every point increment in the
source is a positive literal, so scores never go negative.
-/

namespace SuspChecker

/-! ## Generic string helpers -/

/-- All suffixes of a list, longest first (the list itself down to []). -/
def suffixesOf : List Char → List (List Char)
  | [] => [[]]
  | c :: cs => (c :: cs) :: suffixesOf cs

/-- Substring containment: needle occurs contiguously inside hay.  This is
the semantics of Python re.search applied to a plain literal pattern. -/
def containsStr (needle hay : List Char) : Bool :=
  (suffixesOf hay).any (fun t => needle.isPrefixOf t)

/-- ASCII lowercasing of every character; model of re.IGNORECASE matching
for the all-lowercase ASCII keyword alternations used in the source. -/
def lowerStr (s : List Char) : List Char :=
  s.map Char.toLower

/-- Splits a list at the first occurrence of sep: returns the part strictly
before and strictly after it, or none when sep does not occur. -/
def splitAtFirst (sep : Char) : List Char → Option (List Char × List Char)
  | [] => none
  | c :: cs =>
    if c = sep then some ([], cs)
    else
      match splitAtFirst sep cs with
      | some (a, b) => some (c :: a, b)
      | none => none

/-- Splits a list at the last occurrence of sep. -/
def splitAtLast (sep : Char) (s : List Char) : Option (List Char × List Char) :=
  match splitAtFirst sep s.reverse with
  | some (a, b) => some (b.reverse, a.reverse)
  | none => none

/-! ## Model of urllib.parse.urlparse

check_url only looks at parsed.scheme and parsed.netloc, so the model
extracts exactly those two components, following CPython's urlsplit for
inputs free of control characters: the scheme is the lowercased text before
the first colon when it starts with an ASCII letter and continues with
scheme characters; the netloc follows a double slash and runs to the first
slash, question mark or hash.  urlsplit raises ValueError ("Invalid IPv6
URL") when the netloc contains an opening bracket without a closing one or
vice versa; that is the modelled failure (Except.error).  Checks specific
to bracketed IPv6 hosts and non-ASCII NFKC normalisation are outside the
modelled (ASCII, bracket-free-host) input space. -/

/-- Characters allowed after the first character of a URL scheme
(CPython scheme_chars: letters, digits, plus, minus, dot). -/
def schemeCharOk (c : Char) : Bool :=
  c.isAlpha || c.isDigit || c = '+' || c = '-' || c = '.'

/-- Scheme extraction of CPython urlsplit: if the text before the first
colon is a well-formed scheme, return (lowercased scheme, rest after the
colon), otherwise (empty, whole input). -/
def splitScheme (s : List Char) : List Char × List Char :=
  match splitAtFirst ':' s with
  | some (before, after) =>
    match before with
    | [] => ([], s)
    | c :: rest =>
      if c.isAlpha && rest.all schemeCharOk then (lowerStr before, after)
      else ([], s)
  | none => ([], s)

/-- The two components of a parsed URL that check_url inspects. -/
structure UrlParts where
  scheme : List Char
  netloc : List Char
deriving DecidableEq

/-- Model of urlparse: scheme and netloc extraction, failing (as the Python
parser raises ValueError) on a netloc with mismatched square brackets. -/
def pyUrlparse (s : List Char) : Except Unit UrlParts :=
  let p := splitScheme s
  let netloc : List Char :=
    match p.2 with
    | '/' :: '/' :: r => r.takeWhile (fun c => c ≠ '/' && c ≠ '?' && c ≠ '#')
    | _ => []
  if (netloc.contains '[' && !netloc.contains ']')
      || (netloc.contains ']' && !netloc.contains '[') then
    Except.error ()
  else
    Except.ok ⟨p.1, netloc⟩

/-! ## The individual heuristic rules of check_url -/

/-- Consumes the literal prefix matched by the anchored pattern
http[s]?:// and returns the remainder; none when the prefix is absent. -/
def dropScheme (s : List Char) : Option (List Char) :=
  match s with
  | 'h' :: 't' :: 't' :: 'p' :: rest =>
    match rest with
    | 's' :: ':' :: '/' :: '/' :: r => some r
    | ':' :: '/' :: '/' :: r => some r
    | _ => none
  | _ => none

/-- Consumes one-or-more digits (a digit-plus regex atom) and returns the
remainder; none when the input does not start with a digit.  Maximal munch
is equivalent to the regex here because each digit run in the pattern is
followed by a literal dot, which no digit can match. -/
def digits1 (s : List Char) : Option (List Char) :=
  match s with
  | c :: cs => if c.isDigit then some (cs.dropWhile Char.isDigit) else none
  | [] => none

/-- Matches the dotted-quad part of the IP rule: four digit runs separated
by literal dots. -/
def ipTail (s : List Char) : Bool :=
  match digits1 s with
  | some ('.' :: r1) =>
    (match digits1 r1 with
     | some ('.' :: r2) =>
       (match digits1 r2 with
        | some ('.' :: r3) => (digits1 r3).isSome
        | _ => false)
     | _ => false)
  | _ => false

/-- Rule 2 of check_url (line 30): re.match of http[s]?:// followed by a
dotted quad of digit runs, anchored at the start of the string. -/
def ipRule (s : List Char) : Bool :=
  match dropScheme s with
  | some r => ipTail r
  | none => false

/-- Rule 3 of check_url (line 34): case-insensitive search for any of the
nine suspicious keywords. -/
def urlKeywordRule (s : List Char) : Bool :=
  let l := lowerStr s
  [ "free", "login", "verify", "update", "secure", "bank", "paypal",
    "confirm", "account" ].any (fun k => containsStr k.data l)

/-- Rule 4 of check_url (line 38): re.match of http[s]?:// followed by one
of the four shortener domains. -/
def shortenerRule (s : List Char) : Bool :=
  match dropScheme s with
  | some r =>
    [ "bit.ly", "tinyurl.com", "goo.gl", "t.co" ].any
      (fun d => d.data.isPrefixOf r)
  | none => false

/-- Rule 5 of check_url (line 42) and the dispatch test of analyze_input
(line 341): both the regex searching for a run of one-or-more at-signs and
the Python substring test for a one-character needle hold exactly when the
string contains an at-sign. -/
def atRule (s : List Char) : Bool :=
  s.contains '@'

/-- A character counted by the excessive-symbols rule. -/
def symCh (c : Char) : Bool :=
  c = '?' || c = '=' || c = '&'

/-- Rule 6 of check_url (line 46): search for a run of three or more
characters from the class question mark / equals / ampersand; such a run
exists exactly when three consecutive such characters exist. -/
def symRunRule : List Char → Bool
  | a :: b :: c :: rest =>
    (symCh a && symCh b && symCh c) || symRunRule (b :: c :: rest)
  | _ => false

/-- Rule 7 of check_url (line 50): case-insensitive search for a look-alike
brand string. -/
def phishingRule (s : List Char) : Bool :=
  let l := lowerStr s
  [ "goog1e", "facebo0k", "paypa1" ].any (fun k => containsStr k.data l)

/-! ## The rules of check_email -/

/-- ASCII model of a regex word character: letter, digit or underscore. -/
def isWordChar (c : Char) : Bool :=
  c.isAlphanum || c = '_'

/-- A character of the bracket class containing word characters, dot and
hyphen, used on both sides of the at-sign in the email pattern. -/
def isNameChar (c : Char) : Bool :=
  isWordChar c || c = '.' || c = '-'

/-- Drops a single trailing newline; the dollar anchor of a Python regex
matches at the end of the string or just before a final newline. -/
def stripFinalNewline (s : List Char) : List Char :=
  if s.getLast? = some '\n' then s.dropLast else s

/-- Model of re.match on the anchored email pattern of line 64: a nonempty
run of name characters, an at-sign, a nonempty run of name characters, a
literal dot, and a nonempty run of word characters reaching the anchor.
Since the name-character class excludes the at-sign, the first run must end
at the first at-sign; and since word characters exclude the dot, the
literal dot of the pattern must be the last dot of the remainder.  The
resulting decomposition is therefore deterministic. -/
def emailRegexMatches (s : List Char) : Bool :=
  match splitAtFirst '@' (stripFinalNewline s) with
  | none => false
  | some (user, rest) =>
    !user.isEmpty && user.all isNameChar &&
      (match splitAtLast '.' rest with
       | none => false
       | some (dom, tld) =>
         !dom.isEmpty && dom.all isNameChar && !tld.isEmpty && tld.all isWordChar)

/-- Rule 2 of check_email (line 69): case-insensitive search for any of the
six suspicious keywords. -/
def emailKeywordRule (s : List Char) : Bool :=
  let l := lowerStr s
  [ "admin", "support", "verify", "noreply", "security", "alert" ].any
    (fun k => containsStr k.data l)

/-- Rule 3 of check_email (line 73): str.endswith on the tuple of four
suspicious top-level domains (exact, case-sensitive). -/
def tldRule (s : List Char) : Bool :=
  [ ".xyz", ".club", ".top", ".online" ].any (fun t => t.data.isSuffixOf s)

/-! ## Assembling the scorers -/

/-- One heuristic rule step of the source: when the condition holds, add
the rule's points and append its issue label. -/
def ruleStep (c : Bool) (pts : Nat) (label : String) :
    Nat × List String → Nat × List String
  | (score, issues) => if c then (score + pts, issues ++ [label]) else (score, issues)

/-- Lines 54-57 of the source: clamp the score to at most 10 and, when it
is zero, report the no-issues label. -/
def finalize : Nat × List String → Nat × List String
  | (score, issues) =>
    let score := min score 10
    if score = 0 then (score, issues ++ ["No obvious issues found"]) else (score, issues)

/-- Lines 21-28 of check_url: parse the URL; a missing scheme or netloc
adds 5 points with the invalid-format label, a parser exception adds 5
points with the malformed label. -/
def urlBase (s : List Char) : Nat × List String :=
  match pyUrlparse s with
  | Except.ok p =>
    if p.scheme.isEmpty || p.netloc.isEmpty then (5, ["Invalid URL format"])
    else (0, [])
  | Except.error _ => (5, ["Malformed URL"])

/-- check_url of the source (lines 17-58): the parse-based base case
followed by the six regex rules in source order, then the clamp and the
zero-score fallback label. -/
def check_url (url : String) : Nat × List String :=
  let s := url.data
  finalize
    (ruleStep (phishingRule s) 3 "Possible phishing domain"
      (ruleStep (symRunRule s) 1 "Excessive symbols"
        (ruleStep (atRule s) 2 "Contains @ symbol"
          (ruleStep (shortenerRule s) 2 "Shortened URL"
            (ruleStep (urlKeywordRule s) 2 "Suspicious keywords"
              (ruleStep (ipRule s) 3 "Contains IP address"
                (urlBase s)))))))

/-- check_email of the source (lines 60-81): the three rules in source
order, then the clamp and the zero-score fallback label. -/
def check_email (email : String) : Nat × List String :=
  let s := email.data
  finalize
    (ruleStep (tldRule s) 2 "Suspicious TLD"
      (ruleStep (emailKeywordRule s) 3 "Suspicious keywords"
        (ruleStep (!emailRegexMatches s) 5 "Invalid email format"
          (0, []))))

/-! ## Classifier, dispatch, records and the history store -/

/-- The three status buckets of the classifier. -/
inductive Status where
  | safe : Status
  | potential : Status
  | suspicious : Status
deriving DecidableEq

/-- The score-to-status classifier of analyze_input (lines 346-354): at
least 5 is suspicious, positive below 5 is potential, zero is safe. -/
def classify (score : Nat) : Status :=
  if 5 ≤ score then Status.suspicious
  else if 0 < score then Status.potential
  else Status.safe

/-- The status cell text written by analyze_input for a given score,
following the same branches as the classifier. -/
def statusString (score : Nat) : String :=
  if 5 ≤ score then "SUSPICIOUS ❌"
  else if 0 < score then "POTENTIAL ⚠️"
  else "SAFE ✅"

/-- The per-line dispatch of analyze_input (lines 340-344): a line
containing an at-sign goes to check_email, any other line to check_url. -/
def analyzeLine (entry : String) : Nat × List String :=
  if atRule entry.data then check_email entry else check_url entry

/-- One row of the results table and of the persisted history CSV
(the dict built at lines 363-368). -/
structure Record where
  input : String
  issues : String
  score : Nat
  status : String
deriving DecidableEq

/-- The record analyze_input builds for one input line: the line itself,
the comma-joined issue labels, the score and the status text. -/
def analyzeRecord (entry : String) : Record :=
  let r := analyzeLine entry
  { input := entry
    issues := String.intercalate ", " r.2
    score := r.1
    status := statusString r.1 }

/-- The ordered records of one analysis run over its (already stripped and
non-empty) input lines. -/
def runResults (lines : List String) : List Record :=
  lines.map analyzeRecord

/-- The observable states of the history CSV at the start of an append:
the file may be absent, present but failing to read or parse, or present
with a list of records in file order. -/
inductive HistFile where
  | missing : HistFile
  | unreadable : HistFile
  | table : List Record → HistFile
deriving DecidableEq

/-- The history append of analyze_input (lines 374-382): when the file
exists and reads as a table, the new records are concatenated after the
existing ones; when the file is absent, or reading it raises (the except
branch), the file is rewritten with only the new records.  The function is
total: no error escapes to the caller on an unreadable history. -/
def appendHistory : HistFile → List Record → HistFile
  | HistFile.table old, new => HistFile.table (old ++ new)
  | _, new => HistFile.table new

/-- One full analysis run: given the history-file state and the input
lines, produce the current run's records (shown in the table and kept as
self.results) and the history-file state after the append. -/
def analyzeRun (f : HistFile) (lines : List String) : List Record × HistFile :=
  (runResults lines, appendHistory f (runResults lines))

/-! ## Unfolding lemmas -/

/-- Unfolded form of check_url. -/
theorem check_url_def (url : String) :
    check_url url =
      finalize
        (ruleStep (phishingRule url.data) 3 "Possible phishing domain"
          (ruleStep (symRunRule url.data) 1 "Excessive symbols"
            (ruleStep (atRule url.data) 2 "Contains @ symbol"
              (ruleStep (shortenerRule url.data) 2 "Shortened URL"
                (ruleStep (urlKeywordRule url.data) 2 "Suspicious keywords"
                  (ruleStep (ipRule url.data) 3 "Contains IP address"
                    (urlBase url.data))))))) := rfl

/-- Unfolded form of check_email. -/
theorem check_email_def (email : String) :
    check_email email =
      finalize
        (ruleStep (tldRule email.data) 2 "Suspicious TLD"
          (ruleStep (emailKeywordRule email.data) 3 "Suspicious keywords"
            (ruleStep (!emailRegexMatches email.data) 5 "Invalid email format"
              (0, [])))) := rfl

/-- Unfolded form of finalize on a pair. -/
theorem finalize_eq (s : Nat) (is : List String) :
    finalize (s, is) =
      if min s 10 = 0 then (min s 10, is ++ ["No obvious issues found"])
      else (min s 10, is) := rfl

/-- A rule step with a false condition leaves the accumulator unchanged. -/
theorem ruleStep_false_eq (pts : Nat) (label : String) (r : Nat × List String) :
    ruleStep false pts label r = r := by
  obtain ⟨s, is⟩ := r
  rfl

/-! ## Score-bound lemmas -/

/-- The first component of finalize is the clamped score. -/
theorem finalize_fst (r : Nat × List String) : (finalize r).1 = min r.1 10 := by
  obtain ⟨s, is⟩ := r
  rw [finalize_eq]
  split <;> rfl

/-- The clamp bounds the final score by 10. -/
theorem finalize_fst_le (r : Nat × List String) : (finalize r).1 ≤ 10 := by
  rw [finalize_fst]
  exact Nat.min_le_right r.1 10

/-- A rule step never decreases the score. -/
theorem ruleStep_fst_le (c : Bool) (pts : Nat) (label : String) (r : Nat × List String) :
    r.1 ≤ (ruleStep c pts label r).1 := by
  obtain ⟨s, is⟩ := r
  cases c
  · exact Nat.le_refl s
  · exact Nat.le_add_right s pts

/-- A pre-clamp score of at least 5 stays at least 5 after the clamp. -/
theorem finalize_fst_ge5 (r : Nat × List String) (h : 5 ≤ r.1) : 5 ≤ (finalize r).1 := by
  rw [finalize_fst]
  exact le_min h (by norm_num)

/-! ## Accumulator invariant: the score is zero exactly when no rule has
fired, and the fallback label never comes from a rule -/

/-- Invariant of the score/issues accumulator before the finalize step. -/
def GoodAcc : Nat × List String → Prop
  | (score, issues) => (score = 0 ↔ issues = []) ∧ "No obvious issues found" ∉ issues

/-- Unfolded form of a rule step with a true condition. -/
theorem ruleStep_true_eq (pts : Nat) (label : String) (s : Nat) (is : List String) :
    ruleStep true pts label (s, is) = (s + pts, is ++ [label]) := rfl

/-- Every rule step preserves the accumulator invariant, because every rule
of the source carries a positive point value and a label distinct from the
fallback label. -/
theorem ruleStep_good (c : Bool) (pts : Nat) (label : String) (r : Nat × List String)
    (hp : 0 < pts) (hl : label ≠ "No obvious issues found") (h : GoodAcc r) :
    GoodAcc (ruleStep c pts label r) := by
  obtain ⟨s, is⟩ := r
  obtain ⟨h1, h2⟩ := h
  cases c
  · exact ⟨h1, h2⟩
  · rw [ruleStep_true_eq]
    refine ⟨⟨fun hh => absurd hh (by omega), fun hh => absurd hh (by simp)⟩,
      fun hmem => ?_⟩
    rcases List.mem_append.mp hmem with hm | hm
    · exact h2 hm
    · exact hl (List.mem_singleton.mp hm).symm

/-- The parse-based base case of check_url satisfies the invariant. -/
theorem urlBase_good (s : List Char) : GoodAcc (urlBase s) := by
  unfold urlBase
  split
  · split
    · exact ⟨by decide, by decide⟩
    · exact ⟨by decide, by decide⟩
  · exact ⟨by decide, by decide⟩

/-- Under the invariant, finalize yields a non-empty issue list that equals
exactly the fallback singleton precisely when the final score is zero. -/
theorem finalize_good (r : Nat × List String) (h : GoodAcc r) :
    (finalize r).2 ≠ [] ∧
      ((finalize r).2 = ["No obvious issues found"] ↔ (finalize r).1 = 0) := by
  obtain ⟨s, is⟩ := r
  obtain ⟨h1, h2⟩ := h
  by_cases hz : s = 0
  · subst hz
    have hz2 : is = [] := h1.mp rfl
    subst hz2
    exact ⟨by decide, by decide⟩
  · have hmin : ¬ min s 10 = 0 := by
      intro hc
      rcases Nat.min_eq_zero_iff.mp hc with hc | hc
      · exact hz hc
      · exact absurd hc (by norm_num)
    rw [finalize_eq, if_neg hmin]
    refine ⟨fun hc => ?_, fun hc => ?_, fun hc => ?_⟩
    · exact hz (h1.mpr hc)
    · have hceq : is = ["No obvious issues found"] := hc
      rw [hceq] at h2
      exact absurd (List.mem_singleton_self _) h2
    · have hceq : min s 10 = 0 := hc
      exact absurd hceq hmin

/-! ## Membership lemmas for the issue list -/

/-- A label already absent from the accumulator and different from the
step's label stays absent. -/
theorem ruleStep_not_mem (c : Bool) (pts : Nat) (label : String) (r : Nat × List String)
    (x : String) (hx : x ∉ r.2) (hne : x ≠ label) : x ∉ (ruleStep c pts label r).2 := by
  obtain ⟨s, is⟩ := r
  cases c
  · exact hx
  · intro hmem
    rcases List.mem_append.mp hmem with hm | hm
    · exact hx hm
    · exact hne (List.mem_singleton.mp hm)

/-- A label present in the accumulator survives every rule step. -/
theorem ruleStep_mem (c : Bool) (pts : Nat) (label : String) (r : Nat × List String)
    (x : String) (hx : x ∈ r.2) : x ∈ (ruleStep c pts label r).2 := by
  obtain ⟨s, is⟩ := r
  cases c
  · exact hx
  · exact List.mem_append.mpr (Or.inl hx)

/-- A label absent from the accumulator and different from the fallback
label is absent from the finalized issue list. -/
theorem finalize_not_mem (r : Nat × List String) (x : String) (hx : x ∉ r.2)
    (hne : x ≠ "No obvious issues found") : x ∉ (finalize r).2 := by
  obtain ⟨s, is⟩ := r
  rw [finalize_eq]
  by_cases hz : min s 10 = 0
  · rw [if_pos hz]
    intro hmem
    rcases List.mem_append.mp hmem with hm | hm
    · exact hx hm
    · exact hne (List.mem_singleton.mp hm)
  · rw [if_neg hz]
    exact hx

/-- A label present in the accumulator survives the finalize step. -/
theorem finalize_mem (r : Nat × List String) (x : String) (hx : x ∈ r.2) :
    x ∈ (finalize r).2 := by
  obtain ⟨s, is⟩ := r
  rw [finalize_eq]
  by_cases hz : min s 10 = 0
  · rw [if_pos hz]
    exact List.mem_append.mpr (Or.inl hx)
  · rw [if_neg hz]
    exact hx

/-- The base case of check_url only ever contributes its two parse-related
labels. -/
theorem urlBase_not_mem (s : List Char) (x : String) (h1 : x ≠ "Invalid URL format")
    (h2 : x ≠ "Malformed URL") : x ∉ (urlBase s).2 := by
  unfold urlBase
  split
  · split
    · intro hm
      exact h1 (List.mem_singleton.mp hm)
    · exact List.not_mem_nil x
  · intro hm
    exact h2 (List.mem_singleton.mp hm)

/-- When the parser raises, the base case is the malformed label with five
points. -/
theorem urlBase_error (s : List Char) (h : pyUrlparse s = Except.error ()) :
    urlBase s = (5, ["Malformed URL"]) := by
  unfold urlBase
  rw [h]

/-- The at-symbol label never appears in a check_email result, whatever the
input: check_email only ever emits its three rule labels and the fallback
label. -/
theorem check_email_no_at_label (email : String) :
    "Contains @ symbol" ∉ (check_email email).2 := by
  rw [check_email_def]
  refine finalize_not_mem _ _ ?_ (by decide)
  refine ruleStep_not_mem _ _ _ _ _ ?_ (by decide)
  refine ruleStep_not_mem _ _ _ _ _ ?_ (by decide)
  refine ruleStep_not_mem _ _ _ _ _ ?_ (by decide)
  exact List.not_mem_nil _

/-! ## Claims -/

/-- Claim C1: for every input string, the score returned by check_url and
by check_email lies in the interval from 0 to 10 inclusive, no matter how
many heuristic rules fire: the clamp bounds it above by 10 and scores are
natural numbers, each rule only adding points. -/
theorem score_within_bounds (s : String) :
    (0 ≤ (check_url s).1 ∧ (check_url s).1 ≤ 10) ∧
      (0 ≤ (check_email s).1 ∧ (check_email s).1 ≤ 10) := by
  constructor
  · refine ⟨Nat.zero_le _, ?_⟩
    rw [check_url_def]
    exact finalize_fst_le _
  · refine ⟨Nat.zero_le _, ?_⟩
    rw [check_email_def]
    exact finalize_fst_le _

/-- Claim C2, counterexample: on the input http followed by an opening
bracket, the parser raises (mismatched bracket in the netloc), yet the
issue list of check_url is exactly the distinct label Malformed URL and
does not contain Invalid URL format, contradicting the claim that a parse
failure yields the same label as a missing scheme or host. -/
theorem parse_failure_counterexample :
    pyUrlparse ("http://[").data = Except.error () ∧
      check_url "http://[" = (5, ["Malformed URL"]) ∧
      "Invalid URL format" ∉ (check_url "http://[").2 :=
  ⟨rfl, rfl, by decide⟩

/-- Claim C2, amended: a URL on which the parser raises contributes the
same five points as a missing scheme or host (so the final score is at
least 5), but under the distinct issue label Malformed URL, and the label
Invalid URL format does not appear in the result. -/
theorem parse_failure_distinct_label (url : String)
    (h : pyUrlparse url.data = Except.error ()) :
    "Malformed URL" ∈ (check_url url).2 ∧
      "Invalid URL format" ∉ (check_url url).2 ∧
      5 ≤ (check_url url).1 := by
  have hbase : urlBase url.data = (5, ["Malformed URL"]) := urlBase_error _ h
  rw [check_url_def]
  refine ⟨?_, ?_, ?_⟩
  · refine finalize_mem _ _ ?_
    refine ruleStep_mem _ _ _ _ _ ?_
    refine ruleStep_mem _ _ _ _ _ ?_
    refine ruleStep_mem _ _ _ _ _ ?_
    refine ruleStep_mem _ _ _ _ _ ?_
    refine ruleStep_mem _ _ _ _ _ ?_
    refine ruleStep_mem _ _ _ _ _ ?_
    rw [hbase]
    exact List.mem_singleton_self _
  · refine finalize_not_mem _ _ ?_ (by decide)
    refine ruleStep_not_mem _ _ _ _ _ ?_ (by decide)
    refine ruleStep_not_mem _ _ _ _ _ ?_ (by decide)
    refine ruleStep_not_mem _ _ _ _ _ ?_ (by decide)
    refine ruleStep_not_mem _ _ _ _ _ ?_ (by decide)
    refine ruleStep_not_mem _ _ _ _ _ ?_ (by decide)
    refine ruleStep_not_mem _ _ _ _ _ ?_ (by decide)
    rw [hbase]
    intro hm
    exact (by decide : "Invalid URL format" ∉ (["Malformed URL"] : List String)) hm
  · refine finalize_fst_ge5 _ ?_
    have h0 : 5 ≤ (urlBase url.data).1 := by
      rw [hbase]
    have h1 := le_trans h0 (ruleStep_fst_le (ipRule url.data) 3 "Contains IP address" _)
    have h2 := le_trans h1 (ruleStep_fst_le (urlKeywordRule url.data) 2 "Suspicious keywords" _)
    have h3 := le_trans h2 (ruleStep_fst_le (shortenerRule url.data) 2 "Shortened URL" _)
    have h4 := le_trans h3 (ruleStep_fst_le (atRule url.data) 2 "Contains @ symbol" _)
    have h5 := le_trans h4 (ruleStep_fst_le (symRunRule url.data) 1 "Excessive symbols" _)
    exact le_trans h5 (ruleStep_fst_le (phishingRule url.data) 3 "Possible phishing domain" _)

/-- Claim C2, amended, witness: the amended statement applied to the
concrete raising input. -/
theorem parse_failure_distinct_label_check :
    pyUrlparse ("http://[").data = Except.error () ∧
      ("Malformed URL" ∈ (check_url "http://[").2 ∧
        "Invalid URL format" ∉ (check_url "http://[").2 ∧
        5 ≤ (check_url "http://[").1) :=
  ⟨rfl, parse_failure_distinct_label "http://[" rfl⟩

/-- Claim C3: the classifier is a total deterministic function of the
score: at least 5 maps to suspicious, strictly between 0 and 5 maps to
potential, and 0 maps to safe. -/
theorem classify_thresholds (s : Nat) :
    (5 ≤ s → classify s = Status.suspicious) ∧
      (0 < s ∧ s < 5 → classify s = Status.potential) ∧
      (s = 0 → classify s = Status.safe) := by
  unfold classify
  refine ⟨fun h => ?_, fun h => ?_, fun h => ?_⟩
  · rw [if_pos h]
  · rw [if_neg (by omega), if_pos h.1]
  · rw [if_neg (by omega), if_neg (by omega)]

/-- Claim C3, witness: the classifier applied at the scores 7, 3 and 0. -/
theorem classify_thresholds_check :
    classify 7 = Status.suspicious ∧ classify 3 = Status.potential ∧
      classify 0 = Status.safe :=
  ⟨(classify_thresholds 7).1 (by decide),
    (classify_thresholds 3).2.1 ⟨by decide, by decide⟩,
    (classify_thresholds 0).2.2 rfl⟩

/-- Claim C4: on the exact input http://192.168.1.1/login, check_url fires
the IP-address rule (3 points) and the suspicious-keyword rule (2 points)
and no other rule, giving score 5 and exactly those two issue labels in
rule order, which the classifier maps to suspicious. -/
theorem ip_login_url_suspicious :
    check_url "http://192.168.1.1/login" =
        (5, ["Contains IP address", "Suspicious keywords"]) ∧
      classify (check_url "http://192.168.1.1/login").1 = Status.suspicious := by
  constructor
  · decide
  · decide

/-- Claim C5: on the exact input user@example.com, check_email returns
score 0 with the issue list being exactly the no-issues label, which the
classifier maps to safe. -/
theorem benign_email_safe :
    check_email "user@example.com" = (0, ["No obvious issues found"]) ∧
      classify (check_email "user@example.com").1 = Status.safe := by
  constructor
  · decide
  · decide

/-- Claim C6: history append is order-preserving: starting from any
readable persisted history and appending the records of run A and then the
records of run B yields the prior records followed by the records of A
followed by the records of B, each run keeping its per-line order (the
records of a run are the map of the record constructor over its lines). -/
theorem history_append_order (old : List Record) (runA runB : List String) :
    (analyzeRun ((analyzeRun (HistFile.table old) runA).2) runB).2 =
      HistFile.table ((old ++ runResults runA) ++ runResults runB) := rfl

/-- Claim C7: when the existing history file cannot be read or parsed
during an append, the append proceeds with only the new run's records, the
prior history being silently discarded for that write; the append function
is total, so no error reaches the user. -/
theorem history_append_unreadable (lines : List String) (recs : List Record) :
    appendHistory HistFile.unreadable recs = HistFile.table recs ∧
      (analyzeRun HistFile.unreadable lines).2 = HistFile.table (runResults lines) :=
  ⟨rfl, rfl⟩

/-- Claim C8: scoring is deterministic across runs and depends on no
hidden state: whenever the same entry appears in two runs, against
arbitrary and possibly different history-file states, the record produced
for it (input, joined issues, score, status) is identical. -/
theorem scorer_state_independent (f₁ f₂ : HistFile) (l₁ l₂ : List String)
    (i j : Nat) (e : String) (h₁ : l₁[i]? = some e) (h₂ : l₂[j]? = some e) :
    (analyzeRun f₁ l₁).1[i]? = (analyzeRun f₂ l₂).1[j]? := by
  show (runResults l₁)[i]? = (runResults l₂)[j]?
  unfold runResults
  rw [List.getElem?_map, List.getElem?_map, h₁, h₂]

/-- Claim C8, witness: the same entry at position 0 of one run and
position 1 of another run, over different history states, yields the same
record. -/
theorem scorer_state_independent_check :
    (["alpha"] : List String)[0]? = some "alpha" ∧
      (["beta", "alpha"] : List String)[1]? = some "alpha" ∧
      (analyzeRun HistFile.missing ["alpha"]).1[0]? =
        (analyzeRun (HistFile.table []) ["beta", "alpha"]).1[1]? :=
  ⟨rfl, rfl,
    scorer_state_independent HistFile.missing (HistFile.table []) ["alpha"]
      ["beta", "alpha"] 0 1 "alpha" rfl rfl⟩

/-- Claim C9: for every input string, the issue list of check_url and of
check_email is non-empty, and it is exactly the no-issues singleton if and
only if the score is 0. -/
theorem issues_nonempty_iff (s : String) :
    ((check_url s).2 ≠ [] ∧
        ((check_url s).2 = ["No obvious issues found"] ↔ (check_url s).1 = 0)) ∧
      ((check_email s).2 ≠ [] ∧
        ((check_email s).2 = ["No obvious issues found"] ↔ (check_email s).1 = 0)) := by
  constructor
  · rw [check_url_def]
    refine finalize_good _ ?_
    refine ruleStep_good _ _ _ _ (by decide) (by decide) ?_
    refine ruleStep_good _ _ _ _ (by decide) (by decide) ?_
    refine ruleStep_good _ _ _ _ (by decide) (by decide) ?_
    refine ruleStep_good _ _ _ _ (by decide) (by decide) ?_
    refine ruleStep_good _ _ _ _ (by decide) (by decide) ?_
    refine ruleStep_good _ _ _ _ (by decide) (by decide) ?_
    exact urlBase_good s.data
  · rw [check_email_def]
    refine finalize_good _ ?_
    refine ruleStep_good _ _ _ _ (by decide) (by decide) ?_
    refine ruleStep_good _ _ _ _ (by decide) (by decide) ?_
    refine ruleStep_good _ _ _ _ (by decide) (by decide) ?_
    exact ⟨by decide, by decide⟩

/-- Claim C10: the issue label for the at-symbol rule never appears in the
result of the per-line dispatch: a line containing an at-sign is routed to
check_email, which never emits that label, and a line without an at-sign
cannot make the at-symbol rule of check_url fire. -/
theorem at_symbol_issue_never (entry : String) :
    "Contains @ symbol" ∉ (analyzeLine entry).2 := by
  unfold analyzeLine
  cases hc : atRule entry.data with
  | true =>
    rw [if_pos rfl]
    exact check_email_no_at_label entry
  | false =>
    rw [if_neg Bool.false_ne_true]
    rw [check_url_def, hc, ruleStep_false_eq]
    refine finalize_not_mem _ _ ?_ (by decide)
    refine ruleStep_not_mem _ _ _ _ _ ?_ (by decide)
    refine ruleStep_not_mem _ _ _ _ _ ?_ (by decide)
    refine ruleStep_not_mem _ _ _ _ _ ?_ (by decide)
    refine ruleStep_not_mem _ _ _ _ _ ?_ (by decide)
    refine ruleStep_not_mem _ _ _ _ _ ?_ (by decide)
    exact urlBase_not_mem entry.data _ (by decide) (by decide)

end SuspChecker
